import Mathlib

/-!
Verification of the earthquake dashboard pipeline
(`src/earthquake_dashboard.py`).

Shallow embedding conventions:
* JSON numbers (magnitudes, coordinates) are modelled as `Rat`; the code
  only compares them by order, which rationals share with IEEE floats on
  the inputs considered here.
* A JSON `null` is `Option.none`.
* Epoch milliseconds (`properties.time`) are `Int`; the pandas
  `datetime64[ns]` value of a row is the `Int` count of nanoseconds.
* The `requests.get` + `.json()` + `data["features"]` step is a parameter
  of type `Except String (List Feature)`: `.error` covers the network,
  non-JSON and missing-`features`-key failures that raise before the
  DataFrame is built.
* Exceptions raised inside the `try` block of `load_data` (IndexError from
  `x[2]` on a short coordinate list, the KeyError raised by the column
  selection when `features` is empty so `pd.json_normalize` yields no
  columns, OutOfBoundsDatetime from `pd.to_datetime`) are modelled by
  `Option`/failure results that route to the `except` branch, which
  returns an empty table and displays an error message (`st.error`).
-/

/-- A raw GeoJSON feature, after key extraction: `properties.place`,
`properties.mag`, `properties.time`, `geometry.coordinates`. -/
structure Feature where
  place : Option String
  mag : Option Rat
  time : Int
  coordinates : List Rat
deriving DecidableEq, Repr

/-- A row of the DataFrame built inside `load_data`: the selected columns
`place, mag, time, coordinates` plus the derived `lon, lat, depth`
(lines 63-65) and `date` (line 68, in nanoseconds). -/
structure Row where
  place : Option String
  mag : Option Rat
  time : Int
  coordinates : List Rat
  lon : Rat
  lat : Rat
  depth : Rat
  date : Int
deriving DecidableEq, Repr

/-- Bounds of pandas `datetime64[ns]` (`pd.Timestamp.min.value` /
`pd.Timestamp.max.value`): `pd.to_datetime(ms, unit="ms")` raises
`OutOfBoundsDatetime` outside them. -/
def nsMinValue : Int := -(2 ^ 63) + 1

def nsMaxValue : Int := 2 ^ 63 - 1

/-- Line 68: `pd.to_datetime(df["time"], unit="ms")` — epoch milliseconds
to a nanosecond-resolution timestamp; fails out of bounds. -/
def msToDatetimeNs (ms : Int) : Option Int :=
  if nsMinValue ≤ ms * 1000000 ∧ ms * 1000000 ≤ nsMaxValue then
    some (ms * 1000000)
  else none

/-- Converting a `datetime64[ns]` timestamp back to epoch milliseconds
(`.value // 10**6`, floor division). -/
def datetimeNsToMs (ns : Int) : Int := Int.ediv ns 1000000

/-- Lines 63-68 for one feature: positional coordinate decomposition
(`x[0]`, `x[1]`, `x[2]`, raising IndexError when absent) and the timestamp
conversion. `none` means the row construction raised. -/
def mkRow (f : Feature) : Option Row :=
  match f.coordinates.get? 0, f.coordinates.get? 1, f.coordinates.get? 2,
      msToDatetimeNs f.time with
  | some lon, some lat, some depth, some date =>
    some { place := f.place, mag := f.mag, time := f.time,
           coordinates := f.coordinates,
           lon := lon, lat := lat, depth := depth, date := date }
  | _, _, _, _ => none

/-- Line 71: `df["mag"].notnull()`. -/
def magNotNull (r : Row) : Bool := r.mag.isSome

/-- Line 72: `df["mag"] > 0` (a null magnitude compares as False). -/
def magPos (r : Row) : Bool :=
  match r.mag with
  | some m => decide (0 < m)
  | none => false

/-- Lines 46-77, `load_data`: fetch, normalize, filter, with the catch-all
`except` branch returning an empty DataFrame and showing `st.error`.
Result: the table and the displayed error message, if any. -/
def load_data (fetched : Except String (List Feature)) :
    List Row × Option String :=
  match fetched with
  | Except.error e => ([], some ("Error fetching data: " ++ e))
  | Except.ok features =>
    if features.isEmpty then
      -- `pd.json_normalize([])` has no columns, so the selection on
      -- line 54 raises KeyError, caught by the `except` branch.
      ([], some "Error fetching data: columns not in index")
    else
      match features.mapM mkRow with
      | none => ([], some "Error fetching data: list index out of range")
      | some rows =>
          (((rows.filter magNotNull).filter magPos), none)

/-- Line 96 (and the Filter Stage contract): `df["mag"] >= mag_filter`
for one row; a null magnitude compares as False. -/
def magGE (r : Row) (t : Rat) : Bool :=
  match r.mag with
  | some m => decide (t ≤ m)
  | none => false

/-- Line 96: `df = df[df["mag"] >= mag_filter]` — the Filter Stage. -/
def magFilter (rows : List Row) (t : Rat) : List Row :=
  rows.filter (fun r => magGE r t)

/-- Python `round` to the nearest integer, ties to even (banker's
rounding), on the exact rational value. -/
def roundHalfEven (q : Rat) : Int :=
  if q - ⌊q⌋ < 1 / 2 then ⌊q⌋
  else if 1 / 2 < q - ⌊q⌋ then ⌊q⌋ + 1
  else if ⌊q⌋ % 2 = 0 then ⌊q⌋ else ⌊q⌋ + 1

/-- Python `round(x, 1)`: round to one decimal place, ties to even. -/
def pyRound1 (q : Rat) : Rat := (roundHalfEven (q * 10) : Rat) / 10

/-- The non-null magnitudes of a table (`df["mag"]` with NaN skipped, as
pandas `.min()`/`.max()` do). -/
def mags (rows : List Row) : List Rat := rows.filterMap Row.mag

/-- Minimum of a list of rationals (`none` on the empty list). -/
def listMin : List Rat → Option Rat
  | [] => none
  | x :: xs =>
    match listMin xs with
    | none => some x
    | some m => some (min x m)

/-- Maximum of a list of rationals (`none` on the empty list). -/
def listMax : List Rat → Option Rat
  | [] => none
  | x :: xs =>
    match listMax xs with
    | none => some x
    | some m => some (max x m)

/-- The configuration `st.sidebar.slider` is called with on lines 88-94. -/
structure Slider where
  min_value : Rat
  max_value : Rat
  value : Rat
  step : Rat
deriving DecidableEq, Repr

/-- Lines 85-94: `min_mag = float(df["mag"].min())`,
`max_mag = float(df["mag"].max())`, then the slider with
`min_value=round(min_mag, 1)`, `max_value=round(max_mag, 1)`,
`value=2.5`, `step=0.1`. Only evaluated when the table is non-empty
(line 84); the `.getD 0` default is never reached then. -/
def magSlider (rows : List Row) : Slider :=
  { min_value := pyRound1 ((listMin (mags rows)).getD 0)
    max_value := pyRound1 ((listMax (mags rows)).getD 0)
    value := 5 / 2
    step := 1 / 10 }

/-- A row of the displayed table: the selected columns
`["date", "place", "mag", "depth"]` of line 106. -/
structure TableRow where
  date : Int
  place : Option String
  mag : Option Rat
  depth : Rat
deriving DecidableEq, Repr

/-- Line 107 comparison: `sort_values("date", ascending=False)`. -/
def dateDesc (a b : Row) : Bool := decide (b.date ≤ a.date)

/-- Lines 105-110: select columns, sort by date descending, take the
first 20 rows. -/
def presentTable (df : List Row) : List TableRow :=
  ((df.mergeSort dateDesc).map fun r =>
    { date := r.date, place := r.place, mag := r.mag, depth := r.depth }).take 20

/-- What the script renders after `load_data`, as a function of the
normalized table and the slider position. -/
structure View where
  filtered : List Row
  tableRows : List TableRow
  mapRendered : Bool
  warningShown : Bool
deriving Repr

/-- Lines 84-96: the slider and the magnitude filter are evaluated only
when the loaded table is non-empty (line 84); an empty table passes
through unchanged. -/
def filteredTable (df0 : List Row) (threshold : Rat) : List Row :=
  if df0.isEmpty then df0 else magFilter df0 threshold

/-- Lines 84-151: the data table is shown only when the filtered table is
non-empty (line 103); the map is rendered when the filtered table is
non-empty (line 115) and otherwise `st.warning` is shown (line 151). -/
def pipeline (df0 : List Row) (threshold : Rat) : View :=
  { filtered := filteredTable df0 threshold
    tableRows :=
      if (filteredTable df0 threshold).isEmpty then []
      else presentTable (filteredTable df0 threshold)
    mapRendered := !(filteredTable df0 threshold).isEmpty
    warningShown := (filteredTable df0 threshold).isEmpty }

/-- Modelled from the spec: the Cache Layer TTL. The source only declares
`@st.cache_data(ttl=600)` (line 45); the cache implementation lives in the
streamlit library, not in this repository, so the lookup semantics below
follow section 4.3 of the specification. -/
def cacheTTL : Int := 600

/-- Modelled from the spec: a cached entry — "a mapping from request URL
to (normalized table, fetch timestamp)". -/
structure CacheEntry where
  table : List Row
  fetchedAt : Int
deriving Repr

/-- Modelled from the spec: lookup of a URL in the cache map (most recent
entry for the URL wins). -/
def cacheFind : List (String × CacheEntry) → String → Option CacheEntry
  | [], _ => none
  | (u, e) :: rest, url => if u = url then some e else cacheFind rest url

/-- Result of one Cache Layer lookup: the returned table, the updated
cache state, and how many underlying fetch-and-normalize calls ran. -/
structure LookupResult where
  table : List Row
  cache : List (String × CacheEntry)
  fetches : Nat
deriving Repr

/-- Modelled from the spec: "A lookup for a URL whose cached entry's age
is below a fixed TTL (600 seconds) returns the cached table without
invoking the Feed Client or Normalizer. Otherwise it invokes them, stores
the new table with a fresh timestamp, and returns it." `fetch` is the
Feed Client + Normalizer composite; `fetches` counts its invocations. -/
def cacheLookup (cache : List (String × CacheEntry)) (url : String)
    (now : Int) (fetch : String → List Row) : LookupResult :=
  match cacheFind cache url with
  | some e =>
    if now - e.fetchedAt < cacheTTL then
      { table := e.table, cache := cache, fetches := 0 }
    else
      { table := fetch url, cache := (url, ⟨fetch url, now⟩) :: cache, fetches := 1 }
  | none =>
    { table := fetch url, cache := (url, ⟨fetch url, now⟩) :: cache, fetches := 1 }

/-- Test fixture: the rational 4.2, in reduced constructor form. -/
def q42 : Rat := ⟨21, 5, by decide, by decide⟩

/-- Test fixture: the rational 6.5, in reduced constructor form. -/
def q65 : Rat := ⟨13, 2, by decide, by decide⟩

/-- Test fixture: feature with a null magnitude. -/
def featNullMag : Feature :=
  { place := some "A", mag := none, time := 1700000000000, coordinates := [1, 2, 3] }

/-- Test fixture: feature with magnitude -1.0. -/
def featNegMag : Feature :=
  { place := some "B", mag := some (-1), time := 1700000000001, coordinates := [4, 5, 6] }

/-- Test fixture: feature with magnitude 4.2. -/
def featPosMag : Feature :=
  { place := some "C", mag := some q42, time := 1700000000002, coordinates := [7, 8, 9] }

/-- Test fixture: a malformed feature — its coordinate sequence has only
2 elements, so `x[2]` on line 65 raises IndexError. -/
def featShortCoords : Feature :=
  { place := some "D", mag := some 3, time := 1700000000003, coordinates := [1, 2] }

/-- Test fixture: feature whose `place` is null. -/
def featNullPlace : Feature :=
  { place := none, mag := some q42, time := 1700000000004, coordinates := [1, 2, 3] }

/-- Test fixture: a normalized row with the given place, magnitude and
epoch milliseconds. -/
def testRow (p : String) (m : Rat) (tm : Int) : Row :=
  { place := some p, mag := some m, time := tm, coordinates := [0, 0, 0],
    lon := 0, lat := 0, depth := 0, date := tm * 1000000 }

/-- Test fixture: normalized table with magnitudes [4.0, 5.0, 6.5]. -/
def rowsC2 : List Row :=
  [testRow "p" 4 1000, testRow "q" 5 2000, testRow "r" q65 3000]

/-- Test fixture: a normalized table whose one magnitude is 3.0, so the
slider bounds are [3.0, 3.0] while the default stays 2.5. -/
def rowsC7 : List Row := [testRow "s" 3 1000]

/-! ### Helper lemmas about the embedding -/

/-- Inversion of `mkRow`: when the row construction succeeds, the selected
columns pass through unchanged and `date` comes from `msToDatetimeNs`. -/
theorem mkRow_eq_some {f : Feature} {r : Row} (h : mkRow f = some r) :
    r.place = f.place ∧ r.mag = f.mag ∧ r.time = f.time ∧
    msToDatetimeNs f.time = some r.date := by
  unfold mkRow at h
  split at h
  · obtain rfl := Option.some_inj.mp h
    exact ⟨rfl, rfl, rfl, by assumption⟩
  · simp at h

/-- A coordinate sequence shorter than 3 elements makes `mkRow` raise. -/
theorem mkRow_short_coordinates {f : Feature} (h : f.coordinates.length < 3) :
    mkRow f = none := by
  have h2 : f.coordinates.get? 2 = none := List.get?_eq_none.mpr (by omega)
  unfold mkRow
  rw [h2]
  split
  · simp_all
  · rfl

/-- Provenance through `mapM`: every produced row comes from some input
feature. -/
theorem mapM_mkRow_mem {fs : List Feature} {rows : List Row}
    (h : fs.mapM mkRow = some rows) :
    ∀ r ∈ rows, ∃ f ∈ fs, mkRow f = some r := by
  induction fs generalizing rows with
  | nil =>
    simp only [List.mapM_nil, pure, Option.some_inj] at h
    subst h
    intro r hr
    cases hr
  | cons g gs ih =>
    simp only [List.mapM_cons, Option.bind_eq_some, Option.some_inj,
      bind, pure] at h
    obtain ⟨r0, hg, rs, hgs, h⟩ := h
    subst h
    intro r hr
    rcases List.mem_cons.mp hr with h | h
    · exact ⟨g, List.mem_cons_self g gs, h ▸ hg⟩
    · obtain ⟨f, hf, hmk⟩ := ih hgs r h
      exact ⟨f, List.mem_cons_of_mem g hf, hmk⟩

/-- If any feature in the list makes `mkRow` raise, the whole `mapM`
fails. -/
theorem mapM_mkRow_none {fs : List Feature} {f : Feature}
    (hf : f ∈ fs) (hnone : mkRow f = none) : fs.mapM mkRow = none := by
  induction fs with
  | nil => cases hf
  | cons g gs ih =>
    simp only [List.mapM_cons, bind, pure]
    rcases List.mem_cons.mp hf with h | h
    · subst h
      rw [hnone]
      rfl
    · cases hg : mkRow g
      · rfl
      · rw [ih h]
        rfl

/-- Every row of a successful `load_data` comes from some input feature. -/
theorem load_data_ok_mem {fs : List Feature} {r : Row}
    (h : r ∈ (load_data (Except.ok fs)).1) : ∃ f ∈ fs, mkRow f = some r := by
  simp only [load_data] at h
  by_cases he : fs.isEmpty
  · simp [he] at h
  · rw [if_neg (by simpa using he)] at h
    cases hm : fs.mapM mkRow with
    | none => rw [hm] at h; simp at h
    | some rows =>
      rw [hm] at h
      have hr : r ∈ rows :=
        List.mem_of_mem_filter (List.mem_of_mem_filter h)
      exact mapM_mkRow_mem hm r hr

/-- Inversion of the timestamp conversion. -/
theorem msToDatetimeNs_eq_some {ms ns : Int}
    (h : msToDatetimeNs ms = some ns) : ns = ms * 1000000 := by
  unfold msToDatetimeNs at h
  split at h
  · exact (Option.some_inj.mp h).symm
  · cases h

/-- A non-empty list has a minimum. -/
theorem listMin_isSome {xs : List Rat} (h : xs ≠ []) :
    ∃ m, listMin xs = some m := by
  cases xs with
  | nil => cases h rfl
  | cons x xs =>
    unfold listMin
    cases listMin xs <;> exact ⟨_, rfl⟩

/-- The minimum of a list is one of its elements. -/
theorem listMin_mem {xs : List Rat} {m : Rat} (h : listMin xs = some m) :
    m ∈ xs := by
  induction xs generalizing m with
  | nil => cases h
  | cons x xs ih =>
    unfold listMin at h
    cases hxs : listMin xs with
    | none =>
      rw [hxs] at h
      obtain rfl := Option.some_inj.mp h
      exact List.mem_cons_self x xs
    | some m0 =>
      rw [hxs] at h
      obtain rfl := Option.some_inj.mp h
      rcases min_choice x m0 with hmin | hmin
      · rw [hmin]; exact List.mem_cons_self x xs
      · rw [hmin]; exact List.mem_cons_of_mem x (ih hxs)

/-- The minimum of a list is a lower bound. -/
theorem listMin_le {xs : List Rat} {m : Rat} (h : listMin xs = some m) :
    ∀ x ∈ xs, m ≤ x := by
  induction xs generalizing m with
  | nil => cases h
  | cons x xs ih =>
    unfold listMin at h
    intro y hy
    cases hxs : listMin xs with
    | none =>
      rw [hxs] at h
      obtain rfl := Option.some_inj.mp h
      rcases List.mem_cons.mp hy with hyx | hmem
      · rw [hyx]
      · cases xs with
        | nil => cases hmem
        | cons z zs =>
          obtain ⟨m0, hm0⟩ := listMin_isSome (by simp : z :: zs ≠ [])
          rw [hm0] at hxs
          cases hxs
    | some m0 =>
      rw [hxs] at h
      obtain rfl := Option.some_inj.mp h
      rcases List.mem_cons.mp hy with hyx | hmem
      · rw [hyx]; exact min_le_left x m0
      · exact le_trans (min_le_right x m0) (ih hxs y hmem)

/-- A non-empty list has a maximum. -/
theorem listMax_isSome {xs : List Rat} (h : xs ≠ []) :
    ∃ m, listMax xs = some m := by
  cases xs with
  | nil => cases h rfl
  | cons x xs =>
    unfold listMax
    cases listMax xs <;> exact ⟨_, rfl⟩

/-- The maximum of a list is one of its elements. -/
theorem listMax_mem {xs : List Rat} {m : Rat} (h : listMax xs = some m) :
    m ∈ xs := by
  induction xs generalizing m with
  | nil => cases h
  | cons x xs ih =>
    unfold listMax at h
    cases hxs : listMax xs with
    | none =>
      rw [hxs] at h
      obtain rfl := Option.some_inj.mp h
      exact List.mem_cons_self x xs
    | some m0 =>
      rw [hxs] at h
      obtain rfl := Option.some_inj.mp h
      rcases max_choice x m0 with hmax | hmax
      · rw [hmax]; exact List.mem_cons_self x xs
      · rw [hmax]; exact List.mem_cons_of_mem x (ih hxs)

/-- The maximum of a list is an upper bound. -/
theorem listMax_ge {xs : List Rat} {m : Rat} (h : listMax xs = some m) :
    ∀ x ∈ xs, x ≤ m := by
  induction xs generalizing m with
  | nil => cases h
  | cons x xs ih =>
    unfold listMax at h
    intro y hy
    cases hxs : listMax xs with
    | none =>
      rw [hxs] at h
      obtain rfl := Option.some_inj.mp h
      rcases List.mem_cons.mp hy with hyx | hmem
      · rw [hyx]
      · cases xs with
        | nil => cases hmem
        | cons z zs =>
          obtain ⟨m0, hm0⟩ := listMax_isSome (by simp : z :: zs ≠ [])
          rw [hm0] at hxs
          cases hxs
    | some m0 =>
      rw [hxs] at h
      obtain rfl := Option.some_inj.mp h
      rcases List.mem_cons.mp hy with hyx | hmem
      · rw [hyx]; exact le_max_left x m0
      · exact le_trans (ih hxs y hmem) (le_max_right x m0)

/-- Test fixture: the row `load_data` produces from `featPosMag`. -/
def rowFromPosMag : Row :=
  { place := some "C", mag := some q42, time := 1700000000002,
    coordinates := [7, 8, 9], lon := 7, lat := 8, depth := 9,
    date := 1700000000002000000 }

/-! ### Claims -/

set_option maxRecDepth 4000

/-- C1: for every valid feed, every row of the Record Normalizer's output
table has a magnitude that is non-null and strictly greater than 0; in
particular, for an input feed of 3 features with magnitudes
[null, -1.0, 4.2], the output contains exactly 1 row, the one with
magnitude 4.2. -/
theorem normalizer_magnitude_positive :
    (∀ (fs : List Feature) (r : Row),
        r ∈ (load_data (Except.ok fs)).1 → ∃ m, r.mag = some m ∧ 0 < m)
    ∧ (load_data (Except.ok [featNullMag, featNegMag, featPosMag])).1.map Row.mag
        = [some q42] := by
  constructor
  · intro fs r hr
    simp only [load_data] at hr
    by_cases he : fs.isEmpty
    · simp [he] at hr
    · rw [if_neg (by simpa using he)] at hr
      cases hm : fs.mapM mkRow with
      | none => rw [hm] at hr; simp at hr
      | some rows =>
        rw [hm] at hr
        have hp : magPos r = true := (List.mem_filter.mp hr).2
        unfold magPos at hp
        revert hp
        cases hmag : r.mag with
        | none => intro hp; exact Bool.noConfusion hp
        | some m => intro hp; exact ⟨m, rfl, of_decide_eq_true hp⟩
  · decide

/-- Witness for the C1 theorem: the hypothesis instantiated at the
concrete feed `[featPosMag]` and the row it produces. -/
theorem normalizer_magnitude_positive_witness :
    ∃ m, rowFromPosMag.mag = some m ∧ 0 < m :=
  normalizer_magnitude_positive.1 [featPosMag] rowFromPosMag (by decide)

/-- C2: for every normalized table and threshold, the Filter Stage
returns exactly the subsequence of rows with magnitude ≥ threshold,
preserving row order (it is a pure function on an immutable list); in
particular, on magnitudes [4.0, 5.0, 6.5] with threshold 5.0 it returns
exactly the 2 rows with magnitudes 5.0 and 6.5. -/
theorem filter_stage_exact_subsequence :
    (∀ (rows : List Row) (t : Rat),
        (magFilter rows t).Sublist rows
        ∧ (∀ r : Row, r ∈ magFilter rows t ↔ r ∈ rows ∧ magGE r t = true))
    ∧ (magFilter rowsC2 5).map Row.mag = [some 5, some q65] := by
  refine ⟨fun rows t => ⟨List.filter_sublist rows, fun r => ?_⟩, by decide⟩
  simp only [magFilter]
  exact List.mem_filter

/-- C5: for every FetchError during feed retrieval, `load_data` yields an
empty table and a human-readable error message is shown; the error is
handled, not fatal (`load_data` is a total function). -/
theorem fetch_error_degrades_to_empty (e : String) :
    (load_data (Except.error e)).1 = []
    ∧ (load_data (Except.error e)).2 = some ("Error fetching data: " ++ e) :=
  ⟨rfl, rfl⟩

/-- C10: for every table and thresholds t1 ≤ t2, every row of
`magFilter table t2` is also a row of `magFilter table t1`. -/
theorem filter_threshold_monotone (rows : List Row) (t1 t2 : Rat)
    (h : t1 ≤ t2) : ∀ r ∈ magFilter rows t2, r ∈ magFilter rows t1 := by
  intro r hr
  simp only [magFilter, List.mem_filter] at hr ⊢
  obtain ⟨hmem, hge⟩ := hr
  refine ⟨hmem, ?_⟩
  unfold magGE at hge ⊢
  revert hge
  cases hm : r.mag with
  | none => intro hge; exact Bool.noConfusion hge
  | some m =>
    intro hge
    exact decide_eq_true (le_trans h (of_decide_eq_true hge))

/-- Witness for the C10 theorem: threshold pair 4 ≤ 5 on the concrete
table with magnitudes [4.0, 5.0, 6.5]. -/
theorem filter_threshold_monotone_witness :
    testRow "q" 5 2000 ∈ magFilter rowsC2 4 :=
  filter_threshold_monotone rowsC2 4 5 (by norm_num) (testRow "q" 5 2000)
    (by decide)

/-- Test fixture: the row `load_data` produces from `featNullPlace`. -/
def rowFromNullPlace : Row :=
  { place := none, mag := some q42, time := 1700000000004,
    coordinates := [1, 2, 3], lon := 1, lat := 2, depth := 3,
    date := 1700000000004000000 }

/-- Rounding an integer-valued rational to one decimal returns it
unchanged. -/
theorem pyRound1_intCast (n : Int) : pyRound1 (n : Rat) = n := by
  have h : ((n : Rat) * 10) = ((10 * n : Int) : Rat) := by push_cast; ring
  unfold pyRound1 roundHalfEven
  rw [h, Int.floor_intCast, if_pos (by norm_num)]
  push_cast
  ring

/-- On a cache hit (entry present and younger than the TTL) the lookup
returns the cached table, leaves the cache unchanged and fetches
nothing. -/
theorem cacheLookup_hit {c : List (String × CacheEntry)} {url : String}
    {now : Int} (fetch : String → List Row) {e : CacheEntry}
    (hfind : cacheFind c url = some e)
    (hfresh : now - e.fetchedAt < cacheTTL) :
    cacheLookup c url now fetch
      = { table := e.table, cache := c, fetches := 0 } := by
  unfold cacheLookup
  rw [hfind]
  simp [hfresh]

/-- C3 counterexample: a feed holding one well-formed feature (magnitude
4.2) and one malformed feature (2-element coordinate sequence) yields an
empty output table plus an error message — the well-formed feature's row
is not produced, so the malformed record aborts the whole pass and
empties the result. -/
theorem malformed_record_counterexample :
    (load_data (Except.ok [featPosMag, featShortCoords])).1 = []
    ∧ (load_data (Except.ok [featPosMag, featShortCoords])).2.isSome
        = true := by
  decide

/-- C3 amended: when any feature's coordinate sequence is shorter than 3
elements, the IndexError raised on lines 63-65 reaches the catch-all
`except`: `load_data` returns the empty table and shows an error message;
rows of the well-formed features are lost, but the process does not
terminate. -/
theorem malformed_record_aborts (fs : List Feature) (f : Feature)
    (hf : f ∈ fs) (hlen : f.coordinates.length < 3) :
    (load_data (Except.ok fs)).1 = []
    ∧ (load_data (Except.ok fs)).2.isSome = true := by
  have hnone : fs.mapM mkRow = none :=
    mapM_mkRow_none hf (mkRow_short_coordinates hlen)
  have hne : fs.isEmpty = false := by
    cases fs
    · cases hf
    · rfl
  simp only [load_data]
  rw [if_neg (by simp [hne]), hnone]
  exact ⟨rfl, rfl⟩

/-- Witness for the C3 amended theorem at the concrete two-feature
feed. -/
theorem malformed_record_aborts_witness :
    (load_data (Except.ok [featPosMag, featShortCoords])).1 = []
    ∧ (load_data (Except.ok [featPosMag, featShortCoords])).2.isSome
        = true :=
  malformed_record_aborts [featPosMag, featShortCoords] featShortCoords
    (by decide) (by decide)

/-- C4 (Cache Layer modelled from the spec): starting from an empty
cache, two lookups of the same URL at times t1 ≤ t2 within the 600-second
TTL trigger exactly one underlying fetch-and-normalize: the first lookup
fetches once, the second returns the same table with zero fetches. -/
theorem cache_two_lookups_one_fetch (url : String) (t1 t2 : Int)
    (fetch : String → List Row) (_h1 : t1 ≤ t2)
    (h2 : t2 - t1 < cacheTTL) :
    (cacheLookup [] url t1 fetch).fetches = 1
    ∧ (cacheLookup (cacheLookup [] url t1 fetch).cache url t2 fetch).fetches
        = 0
    ∧ (cacheLookup (cacheLookup [] url t1 fetch).cache url t2 fetch).table
        = (cacheLookup [] url t1 fetch).table := by
  have hfirst : cacheLookup [] url t1 fetch
      = { table := fetch url,
          cache := [(url, { table := fetch url, fetchedAt := t1 })],
          fetches := 1 } := rfl
  have hfind :
      cacheFind [(url, ({ table := fetch url, fetchedAt := t1 } : CacheEntry))] url
        = some { table := fetch url, fetchedAt := t1 } := by
    simp [cacheFind]
  have hsecond := cacheLookup_hit fetch hfind h2
  rw [hfirst, hsecond]
  exact ⟨rfl, rfl, rfl⟩

/-- Witness for the C4 theorem: two lookups at times 0 and 599. -/
theorem cache_two_lookups_one_fetch_witness :
    (cacheLookup [] "u" 0 (fun _ => [])).fetches = 1
    ∧ (cacheLookup (cacheLookup [] "u" 0 (fun _ => [])).cache "u" 599
        (fun _ => [])).fetches = 0
    ∧ (cacheLookup (cacheLookup [] "u" 0 (fun _ => [])).cache "u" 599
        (fun _ => [])).table
        = (cacheLookup [] "u" 0 (fun _ => [])).table :=
  cache_two_lookups_one_fetch "u" 0 599 (fun _ => []) (by decide) (by decide)

/-- C6: whenever the filtered table is empty (including when the feed's
features array is empty), the map is not rendered, a warning message is
presented instead, and the table view shows no rows. -/
theorem empty_filtered_warning :
    (∀ (df0 : List Row) (t : Rat), (pipeline df0 t).filtered = [] →
        (pipeline df0 t).mapRendered = false
        ∧ (pipeline df0 t).warningShown = true
        ∧ (pipeline df0 t).tableRows = [])
    ∧ ((pipeline (load_data (Except.ok [])).1 (5 / 2)).mapRendered = false
        ∧ (pipeline (load_data (Except.ok [])).1 (5 / 2)).warningShown = true
        ∧ (pipeline (load_data (Except.ok [])).1 (5 / 2)).tableRows = []) := by
  constructor
  · intro df0 t h
    simp only [pipeline] at h ⊢
    rw [h]
    exact ⟨rfl, rfl, rfl⟩
  · exact ⟨rfl, rfl, rfl⟩

/-- Witness for the C6 theorem at the empty table. -/
theorem empty_filtered_warning_witness :
    (pipeline [] 0).mapRendered = false
    ∧ (pipeline [] 0).warningShown = true
    ∧ (pipeline [] 0).tableRows = [] :=
  empty_filtered_warning.1 [] 0 rfl

/-- C7 counterexample: on the normalized table whose only magnitude is
3.0, the slider bounds are [3.0, 3.0] while the default stays 2.5, which
lies strictly below the lower bound — the code does not constrain the
default to the bounds. -/
theorem slider_default_out_of_range :
    (magSlider rowsC7).min_value = 3
    ∧ (magSlider rowsC7).max_value = 3
    ∧ (magSlider rowsC7).value = 5 / 2
    ∧ (magSlider rowsC7).value < (magSlider rowsC7).min_value := by
  have hmin : (magSlider rowsC7).min_value = 3 := by
    show pyRound1 ((listMin (mags rowsC7)).getD 0) = 3
    have h3 : (listMin (mags rowsC7)).getD 0 = ((3 : Int) : Rat) := by
      norm_num [mags, rowsC7, testRow, listMin]
    rw [h3, pyRound1_intCast]
    norm_num
  have hmax : (magSlider rowsC7).max_value = 3 := by
    show pyRound1 ((listMax (mags rowsC7)).getD 0) = 3
    have h3 : (listMax (mags rowsC7)).getD 0 = ((3 : Int) : Rat) := by
      norm_num [mags, rowsC7, testRow, listMax]
    rw [h3, pyRound1_intCast]
    norm_num
  refine ⟨hmin, hmax, rfl, ?_⟩
  rw [hmin]
  show (5 : Rat) / 2 < 3
  norm_num

/-- C7 amended: for every table with at least one non-null magnitude, the
slider is configured with lower bound `round(min observed magnitude, 1)`,
upper bound `round(max observed magnitude, 1)`, default exactly 2.5 and
step 0.1; the default is passed unconditionally and is not adjusted to
lie within the bounds. -/
theorem slider_configuration (rows : List Row) (hne : mags rows ≠ []) :
    (∃ mlo, listMin (mags rows) = some mlo ∧ mlo ∈ mags rows
        ∧ (∀ x ∈ mags rows, mlo ≤ x)
        ∧ (magSlider rows).min_value = pyRound1 mlo)
    ∧ (∃ mhi, listMax (mags rows) = some mhi ∧ mhi ∈ mags rows
        ∧ (∀ x ∈ mags rows, x ≤ mhi)
        ∧ (magSlider rows).max_value = pyRound1 mhi)
    ∧ (magSlider rows).value = 5 / 2
    ∧ (magSlider rows).step = 1 / 10 := by
  obtain ⟨mlo, hlo⟩ := listMin_isSome hne
  obtain ⟨mhi, hhi⟩ := listMax_isSome hne
  refine ⟨⟨mlo, hlo, listMin_mem hlo, listMin_le hlo, ?_⟩,
      ⟨mhi, hhi, listMax_mem hhi, listMax_ge hhi, ?_⟩, rfl, rfl⟩
  · show pyRound1 ((listMin (mags rows)).getD 0) = pyRound1 mlo
    rw [hlo]
    rfl
  · show pyRound1 ((listMax (mags rows)).getD 0) = pyRound1 mhi
    rw [hhi]
    rfl

/-- Witness for the C7 amended theorem at the one-row table with
magnitude 3.0. -/
theorem slider_configuration_witness :
    (∃ mlo, listMin (mags rowsC7) = some mlo ∧ mlo ∈ mags rowsC7
        ∧ (∀ x ∈ mags rowsC7, mlo ≤ x)
        ∧ (magSlider rowsC7).min_value = pyRound1 mlo)
    ∧ (∃ mhi, listMax (mags rowsC7) = some mhi ∧ mhi ∈ mags rowsC7
        ∧ (∀ x ∈ mags rowsC7, x ≤ mhi)
        ∧ (magSlider rowsC7).max_value = pyRound1 mhi)
    ∧ (magSlider rowsC7).value = 5 / 2
    ∧ (magSlider rowsC7).step = 1 / 10 :=
  slider_configuration rowsC7 (by decide)

/-- C8 counterexample: a valid feed whose single feature has a null
`place` and magnitude 4.2 produces an output row whose `place` is null —
normalization does not make `place` non-null. -/
theorem place_null_counterexample :
    (load_data (Except.ok [featNullPlace])).1.map Row.place = [none] := by
  decide

/-- C8 amended: the `place` column passes through normalization
unchanged: every output row's `place` equals the `place` of the source
feature it came from, which may be null (only the magnitude is
filtered). -/
theorem place_passthrough (fs : List Feature) (r : Row)
    (h : r ∈ (load_data (Except.ok fs)).1) : ∃ f ∈ fs, r.place = f.place := by
  obtain ⟨f, hfs, hf⟩ := load_data_ok_mem h
  exact ⟨f, hfs, (mkRow_eq_some hf).1⟩

/-- Witness for the C8 amended theorem at the concrete one-feature
feed. -/
theorem place_passthrough_witness :
    ∃ f ∈ [featNullPlace], rowFromNullPlace.place = f.place :=
  place_passthrough [featNullPlace] rowFromNullPlace (by decide)

/-- C9: for every row `load_data` produces, converting the derived UTC
timestamp (nanoseconds) back to epoch milliseconds recovers the original
`occurred_at_epoch_ms` value exactly. -/
theorem occurred_at_roundtrip (fs : List Feature) (r : Row)
    (h : r ∈ (load_data (Except.ok fs)).1) :
    datetimeNsToMs r.date = r.time := by
  obtain ⟨f, -, hf⟩ := load_data_ok_mem h
  obtain ⟨-, -, ht, hd⟩ := mkRow_eq_some hf
  have hdate := msToDatetimeNs_eq_some hd
  rw [datetimeNsToMs, hdate, ht]
  exact Int.mul_ediv_cancel f.time (by norm_num)

/-- Witness for the C9 theorem at the concrete one-feature feed. -/
theorem occurred_at_roundtrip_witness :
    datetimeNsToMs rowFromPosMag.date = rowFromPosMag.time :=
  occurred_at_roundtrip [featPosMag] rowFromPosMag (by decide)
